import Mathlib

/-!
Verification of `.github/scripts/validate-files.py` (iam-azure-rbac-mgmt).

The script validates a repository of RBAC YAML files: a folder-structure
check over `infrastructure/`, a filename convention check, and a per-file
content schema check, reporting failures through a process-wide error flag
and an external status file.

Shallow embedding conventions:
* Python strings are Lean `String`s; character-level operations
  (`startswith`, `endswith`, slicing, `lower`) are modelled on the
  underlying `String.data` character list.  Python's Unicode
  `str.isalpha` is modelled by `pyIsAlpha` below; the ASCII regex
  classes of the two schema patterns are modelled by `Char.isAlpha` and
  `Char.isDigit`, which match them exactly.
* The filesystem is an inductive tree `FS`; `os.listdir` order is the
  order of the `entries` list.
* `sys.exit(1)` during traversal is modelled by `Except Nat` with error
  value `1` (the process exit code).
* The process-wide state (`ENCOUNTERED_ERROR` plus the contents of the
  status file) is a `RunState`; `write_error_status` becomes a counter
  increment recording one more write of the literal `error` to the file.
* Console output is a `List Msg` of the printed diagnostics.
-/

/-! ## Python string primitives -/

/-- Python `s.startswith(pre)`. -/
def pyStartsWith (s pre : String) : Bool :=
  pre.data.isPrefixOf s.data

/-- Python `s.endswith(suf)`. -/
def pyEndsWith (s suf : String) : Bool :=
  suf.data.isSuffixOf s.data

/-- Python `s.lower()` (ASCII). -/
def pyLower (s : String) : String :=
  String.mk (s.data.map Char.toLower)

/-- Python slice `s[3:-e]`: the characters from index 3 up to `e` before
the end, empty when the bounds cross. -/
def pySliceFrom3 (s : String) (e : Nat) : List Char :=
  (s.data.take (s.data.length - e)).drop 3

/-! ## Filename Validator (`validate_filename`, lines 76-93) -/

/-- Python `char.isalpha()`: true for Unicode letters, not only ASCII
ones.  The table is transcribed exactly for the code points below
`0x100`: the ASCII letters and the Latin-1 letters (including `0xAA`,
`0xB5`, `0xBA`, excluding the two signs `0xD7` and `0xF7`); the Unicode
letter table above `0xFF` is not transcribed here and those code points
are treated as non-alphabetic. -/
def pyIsAlpha (c : Char) : Bool :=
  c.isAlpha || c.toNat == 0xAA || c.toNat == 0xB5 || c.toNat == 0xBA ||
    (decide (0xC0 ≤ c.toNat) && decide (c.toNat ≤ 0xFF)
      && c.toNat != 0xD7 && c.toNat != 0xF7)

/-- Transcription of `validate_filename`: rule 1 the `td-` prefix, rule 2
the `.yaml`/`.yml` extension, rule 3 the name body (the slice between
prefix and extension) may hold only alphabetic characters (Python
`isalpha`) and hyphens.  The second component is the diagnostic
reason. -/
def validate_filename (filename : String) : Bool × String :=
  if !(pyStartsWith filename "td-") then
    (false, "Filename must start with td-")
  else if !(pyEndsWith filename ".yaml" || pyEndsWith filename ".yml") then
    (false, "Filename must end with .yaml or .yml")
  else
    let name_part := if pyEndsWith filename ".yaml" then pySliceFrom3 filename 5
      else pySliceFrom3 filename 4
    if name_part.any (fun c => !(pyIsAlpha c || c == '-')) then
      (false, "Filename must not contain numbers or special characters (except for hyphens -)")
    else
      (true, "")

set_option maxHeartbeats 1000000

/-- A filesystem entry; `dir` children appear in `os.listdir` order. -/
inductive FS where
  | file (name : String)
  | dir (name : String) (entries : List FS)
deriving Repr

/-- A value of the folder-structure mapping built by the script: a Python
dict from names to values, or the empty list put in place of an empty
dict.  `null` exists only as the `None` alternative accepted by the
`Or([], None)` schema; `files` exists only as the codomain of the
spec-described structure (claim C2) listing a leaf directory's files —
the script itself never builds either. -/
inductive SVal where
  | emptyList
  | null
  | smap (kvs : List (String × SVal))
  | files (names : List String)
deriving Repr

/-- Transcription of `get_folder_structure`: walks the entries, skipping
hidden names; a subdirectory contributes its recursive structure (the
empty list when that structure is empty); a file contributes nothing but
must sit under `assignments`/`definitions`, carry a `.yaml`/`.yml`
extension (case-insensitively) and pass `validate_filename`, otherwise
the process exits — `.error 1` models `sys.exit(1)`. -/
def get_folder_structure (dirName : String) : List FS → Except Nat (List (String × SVal))
  | [] => .ok []
  | FS.file item :: rest =>
    if pyStartsWith item "." then get_folder_structure dirName rest
    else if (dirName == "assignments" || dirName == "definitions")
        && (pyEndsWith (pyLower item) ".yaml" || pyEndsWith (pyLower item) ".yml") then
      if (validate_filename item).1 then get_folder_structure dirName rest
      else .error 1
    else .error 1
  | FS.dir item sub :: rest =>
    if pyStartsWith item "." then get_folder_structure dirName rest
    else
      match get_folder_structure item sub with
      | .error code => .error code
      | .ok sub_structure =>
        match get_folder_structure dirName rest with
        | .error code => .error code
        | .ok structure_rest =>
          .ok ((item, if sub_structure.isEmpty then SVal.emptyList
            else SVal.smap sub_structure) :: structure_rest)

/-- The mapping `get_folder_structure` computes on success (comparison
definition for the amended claim C2): every non-hidden subdirectory in
listing order mapped to its own nested structure, or to the empty list
when that structure is empty; files never appear in the mapping. -/
def pureStructure : List FS → List (String × SVal)
  | [] => []
  | FS.file _ :: rest => pureStructure rest
  | FS.dir item sub :: rest =>
    if pyStartsWith item "." then pureStructure rest
    else
      (item, if (pureStructure sub).isEmpty then SVal.emptyList
        else SVal.smap (pureStructure sub)) :: pureStructure rest

def isDirEntry : FS → Bool
  | .file _ => false
  | .dir _ _ => true

/-- The non-hidden file names of a directory listing. -/
def visibleFileNames (entries : List FS) : List String :=
  entries.filterMap fun e => match e with
    | .file n => if pyStartsWith n "." then none else some n
    | .dir _ _ => none

/-- Modelled from the spec (claim C2): the nested mapping in which each
leaf directory (one holding no subdirectories) is represented as the list
of its validated filenames — the empty list when it holds no files — and
each intermediate directory as a nested mapping. -/
def specFolderStructure : List FS → List (String × SVal)
  | [] => []
  | FS.file _ :: rest => specFolderStructure rest
  | FS.dir item sub :: rest =>
    if pyStartsWith item "." then specFolderStructure rest
    else
      (item, if sub.any isDirEntry then SVal.smap (specFolderStructure sub)
        else SVal.files (visibleFileNames sub)) :: specFolderStructure rest

/-- Claim C2 counterexample: a `definitions` directory holding one valid
file is represented by the script as the empty list, not as the list of
its validated filenames the spec describes. -/
theorem get_folder_structure_omits_files_counterexample :
    get_folder_structure "infrastructure" [FS.dir "definitions" [FS.file "td-ab.yaml"]]
      = .ok [("definitions", SVal.emptyList)] ∧
    specFolderStructure [FS.dir "definitions" [FS.file "td-ab.yaml"]]
      = [("definitions", SVal.files ["td-ab.yaml"])] ∧
    get_folder_structure "infrastructure" [FS.dir "definitions" [FS.file "td-ab.yaml"]]
      ≠ .ok (specFolderStructure [FS.dir "definitions" [FS.file "td-ab.yaml"]]) := by
  refine ⟨?_, ?_, ?_⟩ <;>
    simp +decide [get_folder_structure, specFolderStructure, visibleFileNames, isDirEntry]

/-- Claim C2 amended form: on success the structure is exactly
`pureStructure`, the mapping of non-hidden subdirectories with files
omitted. -/
theorem get_folder_structure_eq_pureStructure (dirName : String) (entries : List FS) :
    ∀ kvs : List (String × SVal),
      get_folder_structure dirName entries = .ok kvs → kvs = pureStructure entries := by
  induction dirName, entries using get_folder_structure.induct <;> intro kvs h
  case case5 d item rest hhid hcond =>
    simp only [get_folder_structure] at h
    have hC : ((d == "assignments" || d == "definitions")
        && (pyEndsWith (pyLower item) ".yaml" || pyEndsWith (pyLower item) ".yml")) = false := by
      cases hb : ((d == "assignments" || d == "definitions")
          && (pyEndsWith (pyLower item) ".yaml" || pyEndsWith (pyLower item) ".yml"))
      · rfl
      · exact absurd hb hcond
    simp [hhid, hC] at h
  all_goals simp_all [get_folder_structure, pureStructure]

theorem get_folder_structure_eq_pureStructure_witness :
    get_folder_structure "infrastructure" [FS.dir "dev" []] = .ok [("dev", SVal.emptyList)] ∧
    [("dev", SVal.emptyList)] = pureStructure [FS.dir "dev" []] :=
  ⟨by simp +decide [get_folder_structure],
    get_folder_structure_eq_pureStructure "infrastructure" [FS.dir "dev" []]
      [("dev", SVal.emptyList)] (by simp +decide [get_folder_structure])⟩

/-! ## Fatal traversal errors (claim C5) -/

/-- The condition under which the traversal calls `sys.exit(1)` for a
non-hidden file: the parent directory is not named
`assignments`/`definitions`, or the name does not end case-insensitively
in `.yaml`/`.yml`, or the name fails `validate_filename`. -/
def fileFatal (parent name : String) : Bool :=
  !((parent == "assignments" || parent == "definitions")
      && (pyEndsWith (pyLower name) ".yaml" || pyEndsWith (pyLower name) ".yml"))
    || !(validate_filename name).1

/-- A directory listing (under the given parent-directory name) reaches,
through non-hidden directories only, a non-hidden file triggering the
fatal branch. -/
inductive HasBadFile : String → List FS → Prop
  | file {parent : String} {entries : List FS} (name : String)
      (hmem : FS.file name ∈ entries) (hvis : pyStartsWith name "." = false)
      (hbad : fileFatal parent name = true) : HasBadFile parent entries
  | dir {parent : String} {entries : List FS} (name : String) (sub : List FS)
      (hmem : FS.dir name sub ∈ entries) (hvis : pyStartsWith name "." = false)
      (hsub : HasBadFile name sub) : HasBadFile parent entries

/-- A rejected file entry makes the traversal exit at once. -/
theorem gfs_file_reject (d item : String) (rest : List FS)
    (hhid : pyStartsWith item "." = false)
    (hcond : ((d == "assignments" || d == "definitions")
      && (pyEndsWith (pyLower item) ".yaml" || pyEndsWith (pyLower item) ".yml")) = false) :
    get_folder_structure d (FS.file item :: rest) = .error 1 := by
  simp [get_folder_structure, hhid, hcond]

/-- Every exit code the traversal produces is 1. -/
theorem get_folder_structure_error_eq_one (dirName : String) (entries : List FS) :
    ∀ code, get_folder_structure dirName entries = .error code → code = 1 := by
  induction dirName, entries using get_folder_structure.induct <;> intro code h
  case case5 d item rest hhid hcond =>
    have hC : ((d == "assignments" || d == "definitions")
        && (pyEndsWith (pyLower item) ".yaml" || pyEndsWith (pyLower item) ".yml")) = false := by
      cases hb : ((d == "assignments" || d == "definitions")
          && (pyEndsWith (pyLower item) ".yaml" || pyEndsWith (pyLower item) ".yml"))
      · rfl
      · exact absurd hb hcond
    have hhid' : pyStartsWith item "." = false := by
      revert hhid; cases pyStartsWith item "." <;> simp
    rw [gfs_file_reject d item rest hhid' hC] at h
    simpa using h.symm
  all_goals simp_all [get_folder_structure]

/-- A directly contained fatal file makes the traversal exit. -/
theorem gfs_error_of_mem_file (parent name : String) (entries : List FS)
    (hmem : FS.file name ∈ entries) (hvis : pyStartsWith name "." = false)
    (hbad : fileFatal parent name = true) :
    get_folder_structure parent entries = .error 1 := by
  induction entries with
  | nil => cases hmem
  | cons e rest ih =>
    rcases List.mem_cons.1 hmem with heq | hmem'
    · subst heq
      cases hC : ((parent == "assignments" || parent == "definitions")
          && (pyEndsWith (pyLower name) ".yaml" || pyEndsWith (pyLower name) ".yml"))
      · exact gfs_file_reject parent name rest hvis hC
      · have hval : (validate_filename name).1 = false := by
          simpa [fileFatal, hC] using hbad
        simp [get_folder_structure, hvis, hC, hval]
    · cases e with
      | file n =>
        by_cases hn : pyStartsWith n "." = true
        · simp [get_folder_structure, hn, ih hmem']
        · have hn' : pyStartsWith n "." = false := by
            revert hn; cases pyStartsWith n "." <;> simp
          cases hC : ((parent == "assignments" || parent == "definitions")
              && (pyEndsWith (pyLower n) ".yaml" || pyEndsWith (pyLower n) ".yml"))
          · exact gfs_file_reject parent n rest hn' hC
          · cases hval : (validate_filename n).1
            · simp [get_folder_structure, hn', hC, hval]
            · simp [get_folder_structure, hn', hC, hval, ih hmem']
      | dir n sub =>
        by_cases hn : pyStartsWith n "." = true
        · simp [get_folder_structure, hn, ih hmem']
        · have hn' : pyStartsWith n "." = false := by
            revert hn; cases pyStartsWith n "." <;> simp
          cases hsub : get_folder_structure n sub with
          | error c =>
            have hc1 := get_folder_structure_error_eq_one n sub c hsub
            subst hc1
            simp [get_folder_structure, hn', hsub]
          | ok s =>
            simp [get_folder_structure, hn', hsub, ih hmem']

/-- A directly contained subdirectory whose traversal exits makes the
whole traversal exit. -/
theorem gfs_error_of_mem_dir (parent n : String) (sub : List FS) (entries : List FS)
    (hmem : FS.dir n sub ∈ entries) (hvis : pyStartsWith n "." = false)
    (hsub : get_folder_structure n sub = .error 1) :
    get_folder_structure parent entries = .error 1 := by
  induction entries with
  | nil => cases hmem
  | cons e rest ih =>
    rcases List.mem_cons.1 hmem with heq | hmem'
    · subst heq
      simp [get_folder_structure, hvis, hsub]
    · cases e with
      | file m =>
        by_cases hm : pyStartsWith m "." = true
        · simp [get_folder_structure, hm, ih hmem']
        · have hm' : pyStartsWith m "." = false := by
            revert hm; cases pyStartsWith m "." <;> simp
          cases hC : ((parent == "assignments" || parent == "definitions")
              && (pyEndsWith (pyLower m) ".yaml" || pyEndsWith (pyLower m) ".yml"))
          · exact gfs_file_reject parent m rest hm' hC
          · cases hval : (validate_filename m).1
            · simp [get_folder_structure, hm', hC, hval]
            · simp [get_folder_structure, hm', hC, hval, ih hmem']
      | dir m msub =>
        by_cases hm : pyStartsWith m "." = true
        · simp [get_folder_structure, hm, ih hmem']
        · have hm' : pyStartsWith m "." = false := by
            revert hm; cases pyStartsWith m "." <;> simp
          cases hmsub : get_folder_structure m msub with
          | error c =>
            have hc1 := get_folder_structure_error_eq_one m msub c hmsub
            subst hc1
            simp [get_folder_structure, hm', hmsub]
          | ok s =>
            simp [get_folder_structure, hm', hmsub, ih hmem']

/-- Claim C5: any reachable non-hidden file that is outside an
`assignments`/`definitions` parent, lacks a YAML extension, or fails
`validate_filename` terminates the traversal with exit code 1 — it is
never recorded as a non-fatal failure. -/
theorem bad_file_exits_process (parent : String) (entries : List FS)
    (h : HasBadFile parent entries) :
    get_folder_structure parent entries = .error 1 := by
  induction h with
  | file name hmem hvis hbad => exact gfs_error_of_mem_file _ name _ hmem hvis hbad
  | dir name sub hmem hvis hsub ih => exact gfs_error_of_mem_dir _ name sub _ hmem hvis ih

theorem bad_file_exits_process_witness :
    HasBadFile "infrastructure" [FS.file "notes.txt"] ∧
    get_folder_structure "infrastructure" [FS.file "notes.txt"] = .error 1 := by
  have hb : HasBadFile "infrastructure" [FS.file "notes.txt"] :=
    HasBadFile.file "notes.txt" (by simp) (by decide) (by decide)
  exact ⟨hb, bad_file_exits_process _ _ hb⟩

/-! ## YAML documents and the RBAC definition schema (lines 30-42) -/

/-- A parsed YAML document as `yaml.safe_load` can produce it. -/
inductive YVal where
  | str (s : String)
  | int (n : Int)
  | bool (b : Bool)
  | null
  | list (xs : List YVal)
  | map (kvs : List (String × YVal))
deriving Repr

/-- A character of the class `[a-zA-Z0-9\- _]`. -/
def roleNameChar (c : Char) : Bool :=
  c.isAlpha || c.isDigit || c == '-' || c == ' ' || c == '_'

def roleNameCore : List Char → Bool
  | [] => false
  | c :: cs => c.isAlpha && cs.all roleNameChar

/-- The schema library's `Regex(r'^[a-zA-Z][a-zA-Z0-9\- _]*$')` check via
`re.search`: a leading ASCII letter then the class above; `$` also
accepts one trailing newline. -/
def roleNameMatches (s : String) : Bool :=
  roleNameCore s.data ||
    (match s.data.getLast? with
     | some c => c == '\n' && roleNameCore s.data.dropLast
     | none => false)

def isStr : YVal → Bool
  | .str _ => true
  | _ => false

/-- The schema `[str]`: a list whose members are all strings. -/
def isStrList : YVal → Bool
  | .list xs => xs.all isStr
  | _ => false

/-- Dict validation in the schema library: every data key must belong to
the schema (`Wrong key` otherwise) and every schema key must be present
(`Missing key` otherwise). -/
def exactKeys (keys req : List String) : Bool :=
  keys.all (fun k => req.contains k) && req.all (fun k => keys.contains k)

/-- The inner permissions record: exactly the four action fields, each a
list of strings. -/
def permissionRecordOk : YVal → Bool
  | .map kvs =>
    exactKeys (kvs.map Prod.fst) ["actions", "notActions", "dataActions", "notDataActions"]
      && kvs.all (fun kv => isStrList kv.2)
  | _ => false

/-- Validation of a single field of `rbac_definition_schema` against the
subschema registered for its key. -/
def rbacFieldOk : String × YVal → Bool
  | ("roleName", .str s) => roleNameMatches s
  | ("description", .str _) => true
  | ("assignableScopes", v) => isStrList v
  | ("permissions", .list xs) => xs.all permissionRecordOk
  | _ => false

/-- Success of `rbac_definition_schema.validate(data)`: `data` is a mapping
with exactly the four top-level keys, each valid for its subschema. -/
def rbacDefValid : YVal → Bool
  | .map kvs =>
    exactKeys (kvs.map Prod.fst) ["roleName", "description", "assignableScopes", "permissions"]
      && kvs.all rbacFieldOk
  | _ => false

/-! ## Run state and Status Reporter (lines 16-23 and 65-73) -/

/-- The process-wide mutable state: `ENCOUNTERED_ERROR` and the number of
times the literal `error` has been written to the status file. -/
structure RunState where
  encounteredError : Bool
  statusWrites : Nat
deriving Repr, DecidableEq

/-- State at program start: flag clear, status file untouched. -/
def initState : RunState := ⟨false, 0⟩

/-- Transcription of `write_error_status`: one more write of `error` to the status file. -/
def write_error_status (statusWrites : Nat) : Nat :=
  statusWrites + 1

/-- One console line of interest printed by the validators. -/
inductive Msg where
  | failureBanner
  | passBanner
  | rbacPassMsg
  | repoPassMsg
  | repoStructErrorMsg
  | yamlParseErrorMsg
  | schemaErrorMsg
  | prefixErrorMsg (tok : String)
  | validatingMsg (path : String)
  | encErrDebugMsg (b : Bool)
deriving Repr, DecidableEq

/-- The first-error pattern shared by `validate_repo_structure`,
`validate` and `validate_file`: when the flag is clear, print `FAILURE`,
set the flag and write the status file; otherwise do nothing. -/
def failStep (s : RunState) : RunState × List Msg :=
  if s.encounteredError then (s, [])
  else ({ encounteredError := true, statusWrites := write_error_status s.statusWrites },
    [Msg.failureBanner])

/-- Outcome of `yaml.safe_load` on one file: a parse error or a document.
File contents are abstracted into this result; an unreadable file would
raise an uncaught `IOError` in the script and is out of scope. -/
inductive ParseResult where
  | yamlError
  | parsed (v : YVal)
deriving Repr

/-! ## Content Validator (`validate`, lines 165-188) -/

/-- Transcription of `validate` (always called with
`rbac_definition_schema` in the live flow): a parse error or schema error
runs the first-error pattern and prints its diagnostic; afterwards the
green `PASS` is printed only when the flag is (still) clear. -/
def validate (pr : ParseResult) (s : RunState) : RunState × List Msg :=
  let step :=
    match pr with
    | .yamlError =>
      let r := failStep s
      (r.1, r.2 ++ [Msg.yamlParseErrorMsg])
    | .parsed data =>
      if rbacDefValid data then (s, ([] : List Msg))
      else
        let r := failStep s
        (r.1, r.2 ++ [Msg.schemaErrorMsg])
  if step.1.encounteredError then step else (step.1, step.2 ++ [Msg.passBanner])

/-! ## `validate_rbac_definition` (lines 139-146) -/

/-- Transcription of `validate_rbac_definition`: prints a pass line on
success; on schema mismatch prints the `FAILURE` banner only when the
flag is clear — it neither sets the flag nor writes the status file. -/
def validate_rbac_definition (data : YVal) (s : RunState) : RunState × List Msg :=
  if rbacDefValid data then (s, [Msg.rbacPassMsg])
  else if s.encounteredError then (s, [])
  else (s, [Msg.failureBanner])

/-! ## Concrete documents for witnesses and counterexamples -/

/-- A well-formed RBAC definition document. -/
def goodRbacDoc : YVal :=
  .map [("roleName", .str "Reader"), ("description", .str "Read only role"),
    ("assignableScopes", .list [.str "/subscriptions/x"]),
    ("permissions", .list [.map [("actions", .list [.str "Microsoft.Compute/read"]),
      ("notActions", .list []), ("dataActions", .list []), ("notDataActions", .list [])]])]

/-- A document missing the `permissions` key. -/
def badRbacDoc : YVal :=
  .map [("roleName", .str "Reader"), ("description", .str "Read only role"),
    ("assignableScopes", .list [])]

/-! ## Claim C3 -/

/-- Claim C3 counterexample: once an error was recorded earlier in the
run, a file whose document is schema-valid is not reported as a pass —
`validate` prints nothing at all for it. -/
theorem validate_pass_suppressed_counterexample :
    rbacDefValid goodRbacDoc = true ∧
    validate (.parsed goodRbacDoc) ⟨true, 1⟩ = (⟨true, 1⟩, []) ∧
    Msg.passBanner ∉ (validate (.parsed goodRbacDoc) ⟨true, 1⟩).2 :=
  ⟨by decide, by decide, by decide⟩

/-- Claim C3 amended form: for a schema-valid document `validate` leaves
the state unchanged and reports the pass banner exactly when no error has
been encountered earlier in the run. -/
theorem validate_pass_iff_clean (s : RunState) (v : YVal) (h : rbacDefValid v = true) :
    validate (.parsed v) s = (s, if s.encounteredError then [] else [Msg.passBanner]) := by
  cases he : s.encounteredError <;> simp [validate, h, he]

theorem validate_pass_iff_clean_witness :
    rbacDefValid goodRbacDoc = true ∧
    validate (.parsed goodRbacDoc) initState =
      (initState, if initState.encounteredError then [] else [Msg.passBanner]) :=
  ⟨by decide, validate_pass_iff_clean initState goodRbacDoc (by decide)⟩

/-! ## Claim C10 -/

/-- Claim C10 counterexample: with the error flag already set, a
schema-failing document makes `validate_rbac_definition` print nothing —
no failure message — though the state is indeed left untouched. -/
theorem validate_rbac_definition_silent_counterexample :
    rbacDefValid badRbacDoc = false ∧
    validate_rbac_definition badRbacDoc ⟨true, 1⟩ = (⟨true, 1⟩, []) :=
  ⟨by decide, by decide⟩

/-- Claim C10 amended form: on schema mismatch `validate_rbac_definition`
prints the failure banner only when no error was encountered yet, and in
every case leaves the run state — error flag and status-file writes —
untouched. -/
theorem validate_rbac_definition_state_untouched (data : YVal) (s : RunState)
    (h : rbacDefValid data = false) :
    validate_rbac_definition data s =
      (s, if s.encounteredError then [] else [Msg.failureBanner]) := by
  cases he : s.encounteredError <;> simp [validate_rbac_definition, h, he]

theorem validate_rbac_definition_state_untouched_witness :
    rbacDefValid badRbacDoc = false ∧
    validate_rbac_definition badRbacDoc initState =
      (initState, if initState.encounteredError then [] else [Msg.failureBanner]) :=
  ⟨by decide, validate_rbac_definition_state_untouched badRbacDoc initState (by decide)⟩

/-! ## Repository structure schema (`repo_structure_schema`, lines 44-57) -/

/-- The subschema `Or([], None)`: the empty list or `None`. -/
def orEmptyNull : SVal → Bool
  | .emptyList => true
  | .null => true
  | _ => false

/-- One environment's subschema: a mapping with exactly the keys
`assignments` and `definitions`, each empty or null. -/
def envSchemaOk : SVal → Bool
  | .smap kvs =>
    exactKeys (kvs.map Prod.fst) ["assignments", "definitions"]
      && kvs.all (fun kv => orEmptyNull kv.2)
  | _ => false

/-- Success of `repo_structure_schema.validate(actual_structure)`: exactly
the keys `dev`, `pat`, `prod`, each valid for the environment schema. -/
def repoStructureValid (kvs : List (String × SVal)) : Bool :=
  exactKeys (kvs.map Prod.fst) ["dev", "pat", "prod"]
    && kvs.all (fun kv => envSchemaOk kv.2)

/-- Transcription of `validate_repo_structure` (lines 123-137): traverse
(fatal exits propagate), then check the schema; a mismatch runs the
first-error pattern and prints the diagnostic, a match prints a pass
line.  The two informational prints of the structure are omitted. -/
def validate_repo_structure (entries : List FS) (s : RunState) :
    Except Nat (RunState × List Msg) :=
  match get_folder_structure "infrastructure" entries with
  | .error code => .error code
  | .ok actual_structure =>
    if repoStructureValid actual_structure then .ok (s, [Msg.repoPassMsg])
    else
      let r := failStep s
      .ok (r.1, r.2 ++ [Msg.repoStructErrorMsg])

/-! ## Per-file validation (`validate_file`, lines 192-215) -/

/-- Python `os.path.split(p)[1]`: the part after the last `/`. -/
def pyBasename (p : String) : String :=
  String.mk ((p.data.reverse.takeWhile (fun c => !(c == '/'))).reverse)

/-- Python `re.split(r'[-_]', file_name)[0]`: the characters before the
first hyphen or underscore. -/
def prefixToken (file_name : String) : String :=
  String.mk (file_name.data.takeWhile (fun c => !(c == '-' || c == '_')))

/-- Transcription of `validate_file`: print the debug line and header,
run the first-error pattern when the base filename's first token is not
`td`, then always validate the content against
`rbac_definition_schema`.  (`folder_name` is computed by the script but
never used.) -/
def validate_file (file_path : String) (pr : ParseResult) (s : RunState) :
    RunState × List Msg :=
  let file_name := pyBasename file_path
  let tok := prefixToken file_name
  let step :=
    if tok != "td" then
      let r := failStep s
      (r.1, r.2 ++ [Msg.prefixErrorMsg tok])
    else (s, ([] : List Msg))
  let res := validate pr step.1
  (res.1, [Msg.encErrDebugMsg s.encounteredError, Msg.validatingMsg file_path]
    ++ step.2 ++ res.2)

/-! ## Monotonicity and status-write invariants -/

/-- After the first-error pattern the flag is always set. -/
theorem failStep_sets_flag (s : RunState) : (failStep s).1.encounteredError = true := by
  cases h : s.encounteredError <;> simp [failStep, h]

/-- The function `validate` leaves the state fixed or runs the first-error pattern. -/
theorem validate_state_cases (pr : ParseResult) (s : RunState) :
    (validate pr s).1 = s ∨ (validate pr s).1 = (failStep s).1 := by
  cases pr with
  | yamlError =>
    right
    cases he : s.encounteredError <;> simp [validate, failStep, write_error_status, he]
  | parsed data =>
    cases hv : rbacDefValid data
    · right
      cases he : s.encounteredError <;> simp [validate, failStep, write_error_status, hv, he]
    · left
      cases he : s.encounteredError <;> simp [validate, failStep, write_error_status, hv, he]

theorem validate_flag_monotone (pr : ParseResult) (s : RunState)
    (h : s.encounteredError = true) : (validate pr s).1.encounteredError = true := by
  rcases validate_state_cases pr s with h1 | h1 <;> rw [h1]
  · exact h
  · exact failStep_sets_flag s

theorem validate_file_flag_monotone (p : String) (pr : ParseResult) (s : RunState)
    (h : s.encounteredError = true) : (validate_file p pr s).1.encounteredError = true := by
  cases ht : (prefixToken (pyBasename p) != "td") <;>
    simp only [validate_file, ht, Bool.false_eq_true, if_false, if_true]
  · exact validate_flag_monotone pr s h
  · exact validate_flag_monotone pr _ (failStep_sets_flag s)

/-- The status file holds as many writes as the flag dictates: one write
exactly when the flag is set, none while it is clear. -/
def StatusInv (s : RunState) : Prop :=
  s.statusWrites = if s.encounteredError then 1 else 0

theorem failStep_inv (s : RunState) (h : StatusInv s) : StatusInv (failStep s).1 := by
  cases he : s.encounteredError
  · simp [StatusInv, he] at h
    simp [StatusInv, failStep, he, write_error_status, h]
  · simp [StatusInv, he] at h
    simp [StatusInv, failStep, he, h]

theorem validate_inv (pr : ParseResult) (s : RunState) (h : StatusInv s) :
    StatusInv (validate pr s).1 := by
  rcases validate_state_cases pr s with h1 | h1 <;> rw [h1]
  · exact h
  · exact failStep_inv s h

theorem validate_file_inv (p : String) (pr : ParseResult) (s : RunState) (h : StatusInv s) :
    StatusInv (validate_file p pr s).1 := by
  cases ht : (prefixToken (pyBasename p) != "td") <;>
    simp only [validate_file, ht, Bool.false_eq_true, if_false, if_true]
  · exact validate_inv pr s h
  · exact validate_inv pr _ (failStep_inv s h)

/-! ## Runs of the main flow (claims C4 and C8) -/

/-- One validation operation the main flow can execute. -/
inductive Event where
  | repoCheck (entries : List FS)
  | fileCheck (path : String) (pr : ParseResult)

/-- Execute one operation; `.error` is the fatal process exit. -/
def runStep (s : RunState) : Event → Except Nat (RunState × List Msg)
  | .repoCheck entries => validate_repo_structure entries s
  | .fileCheck path pr => .ok (validate_file path pr s)

/-- Execute a sequence of operations, threading the run state. -/
def runEvents (s : RunState) : List Event → Except Nat RunState
  | [] => .ok s
  | ev :: evs =>
    match runStep s ev with
    | .error code => .error code
    | .ok r => runEvents r.1 evs

theorem validate_repo_structure_state_cases (entries : List FS) (s s' : RunState)
    (m : List Msg) (hok : validate_repo_structure entries s = .ok (s', m)) :
    s' = s ∨ s' = (failStep s).1 := by
  cases hg : get_folder_structure "infrastructure" entries with
  | error code =>
    simp only [validate_repo_structure, hg] at hok
    cases hok
  | ok val =>
    simp only [validate_repo_structure, hg] at hok
    by_cases hv : repoStructureValid val = true
    · rw [if_pos hv] at hok
      left
      injection hok with h1
      exact (congrArg Prod.fst h1).symm
    · rw [if_neg hv] at hok
      right
      injection hok with h1
      exact (congrArg Prod.fst h1).symm

theorem runStep_inv (s : RunState) (ev : Event) (s' : RunState) (m : List Msg)
    (h : StatusInv s) (hok : runStep s ev = .ok (s', m)) : StatusInv s' := by
  cases ev with
  | repoCheck entries =>
    rcases validate_repo_structure_state_cases entries s s' m hok with rfl | rfl
    · exact h
    · exact failStep_inv s h
  | fileCheck path pr =>
    simp only [runStep, Except.ok.injEq] at hok
    have hs : s' = (validate_file path pr s).1 := by rw [hok]
    rw [hs]
    exact validate_file_inv path pr s h

theorem runStep_flag_monotone (s : RunState) (ev : Event) (s' : RunState) (m : List Msg)
    (h : s.encounteredError = true) (hok : runStep s ev = .ok (s', m)) :
    s'.encounteredError = true := by
  cases ev with
  | repoCheck entries =>
    rcases validate_repo_structure_state_cases entries s s' m hok with rfl | rfl
    · exact h
    · exact failStep_sets_flag s
  | fileCheck path pr =>
    simp only [runStep, Except.ok.injEq] at hok
    have hs : s' = (validate_file path pr s).1 := by rw [hok]
    rw [hs]
    exact validate_file_flag_monotone path pr s h

theorem runEvents_inv (evs : List Event) : ∀ s s' : RunState,
    StatusInv s → runEvents s evs = .ok s' → StatusInv s' := by
  induction evs with
  | nil =>
    intro s s' h hrun
    simp only [runEvents, Except.ok.injEq] at hrun
    rw [← hrun]; exact h
  | cons ev evs ih =>
    intro s s' h hrun
    simp only [runEvents] at hrun
    cases hst : runStep s ev <;> rw [hst] at hrun
    · cases hrun
    · exact ih _ _ (runStep_inv s ev _ _ h hst) hrun

/-- Claim C4: across a whole run of main-flow operations starting from a
clean state, the status file is written at most once, and it has been
written exactly once precisely when some failure set the error flag. -/
theorem status_file_written_at_most_once (evs : List Event) (s' : RunState)
    (h : runEvents initState evs = .ok s') :
    s'.statusWrites ≤ 1 ∧ (s'.encounteredError = true ↔ s'.statusWrites = 1) := by
  have hinv : StatusInv s' := runEvents_inv evs initState s' (by simp [StatusInv, initState]) h
  rw [StatusInv] at hinv
  cases he : s'.encounteredError <;> rw [he] at hinv <;> simp [hinv]

theorem status_file_written_at_most_once_witness :
    runEvents initState [Event.fileCheck "a.yaml" (.parsed badRbacDoc),
        Event.fileCheck "b.yaml" (.parsed badRbacDoc)] = .ok ⟨true, 1⟩ ∧
    ((⟨true, 1⟩ : RunState).statusWrites ≤ 1 ∧
      ((⟨true, 1⟩ : RunState).encounteredError = true ↔
        (⟨true, 1⟩ : RunState).statusWrites = 1)) :=
  ⟨by rfl, status_file_written_at_most_once
    [Event.fileCheck "a.yaml" (.parsed badRbacDoc),
      Event.fileCheck "b.yaml" (.parsed badRbacDoc)] ⟨true, 1⟩ (by rfl)⟩

/-- Claim C8: the error flag is monotone — once set, no main-flow
operation ever clears it before process exit. -/
theorem error_flag_monotone (evs : List Event) : ∀ s s' : RunState,
    s.encounteredError = true → runEvents s evs = .ok s' →
    s'.encounteredError = true := by
  induction evs with
  | nil =>
    intro s s' h hrun
    simp only [runEvents, Except.ok.injEq] at hrun
    rw [← hrun]; exact h
  | cons ev evs ih =>
    intro s s' h hrun
    simp only [runEvents] at hrun
    cases hst : runStep s ev <;> rw [hst] at hrun
    · cases hrun
    · exact ih _ _ (runStep_flag_monotone s ev _ _ h hst) hrun

theorem error_flag_monotone_witness :
    (⟨true, 1⟩ : RunState).encounteredError = true ∧
    runEvents ⟨true, 1⟩ [Event.fileCheck "td-ok.yaml" (.parsed goodRbacDoc)] = .ok ⟨true, 1⟩ ∧
    (⟨true, 1⟩ : RunState).encounteredError = true :=
  ⟨by decide, by rfl,
    error_flag_monotone [Event.fileCheck "td-ok.yaml" (.parsed goodRbacDoc)]
      ⟨true, 1⟩ ⟨true, 1⟩ (by decide) (by rfl)⟩

/-! ## Claim C9 -/

/-- Claim C9: when the base filename's first hyphen/underscore token is
not `td`, `validate_file` records the failure (flag set; the status file
written exactly when this is the run's first error) and still performs
the content validation afterwards — the prefix failure never aborts the
content check. -/
theorem validate_file_runs_both_checks (file_path : String) (pr : ParseResult) (s : RunState)
    (h : prefixToken (pyBasename file_path) ≠ "td") :
    validate_file file_path pr s =
      ((validate pr (failStep s).1).1,
        [Msg.encErrDebugMsg s.encounteredError, Msg.validatingMsg file_path]
          ++ ((failStep s).2 ++ [Msg.prefixErrorMsg (prefixToken (pyBasename file_path))])
          ++ (validate pr (failStep s).1).2) ∧
    (failStep s).1.encounteredError = true ∧
    (failStep s).1.statusWrites = s.statusWrites + (if s.encounteredError then 0 else 1) ∧
    (validate_file file_path pr s).1.encounteredError = true := by
  have hb : (prefixToken (pyBasename file_path) != "td") = true := by
    simpa using h
  have hEq : validate_file file_path pr s =
      ((validate pr (failStep s).1).1,
        [Msg.encErrDebugMsg s.encounteredError, Msg.validatingMsg file_path]
          ++ ((failStep s).2 ++ [Msg.prefixErrorMsg (prefixToken (pyBasename file_path))])
          ++ (validate pr (failStep s).1).2) := by
    simp [validate_file, hb]
  refine ⟨hEq, failStep_sets_flag s, ?_, ?_⟩
  · cases he : s.encounteredError <;> simp [failStep, write_error_status, he]
  · rw [hEq]
    exact validate_flag_monotone pr (failStep s).1 (failStep_sets_flag s)

theorem validate_file_runs_both_checks_witness :
    prefixToken (pyBasename "infrastructure/dev/definitions/xx.yaml") ≠ "td" ∧
    (validate_file "infrastructure/dev/definitions/xx.yaml" (.parsed goodRbacDoc) initState).1
      = ⟨true, 1⟩ ∧
    (validate_file "infrastructure/dev/definitions/xx.yaml"
        (.parsed goodRbacDoc) initState).1.encounteredError = true := by
  refine ⟨by decide, by decide, ?_⟩
  exact (validate_file_runs_both_checks "infrastructure/dev/definitions/xx.yaml"
    (.parsed goodRbacDoc) initState (by decide)).2.2.2

/-! ## Claim C6: the repository-structure failure condition -/

/-- A boolean `all` is false exactly when some member fails. -/
theorem all_eq_false_iff {α : Type} (l : List α) (p : α → Bool) :
    l.all p = false ↔ ∃ x ∈ l, p x = false := by
  constructor
  · intro h
    by_contra hc
    push_neg at hc
    have hall : l.all p = true := List.all_eq_true.2 fun x hx => by
      have := hc x hx
      revert this; cases p x <;> simp
    rw [hall] at h; cases h
  · rintro ⟨x, hx, hpx⟩
    cases hall : l.all p
    · rfl
    · have := List.all_eq_true.1 hall x hx
      rw [hpx] at this; cases this

/-- Python dict lookup on the association list. -/
def lookupS : List (String × SVal) → String → Option SVal
  | [], _ => none
  | (k, v) :: rest, key => if k == key then some v else lookupS rest key

theorem lookupS_eq_some_of_mem (kvs : List (String × SVal)) (k : String) (v : SVal)
    (hnd : (kvs.map Prod.fst).Nodup) (hmem : (k, v) ∈ kvs) :
    lookupS kvs k = some v := by
  induction kvs with
  | nil => cases hmem
  | cons kv rest ih =>
    obtain ⟨k', v'⟩ := kv
    simp only [List.map_cons, List.nodup_cons] at hnd
    rcases List.mem_cons.1 hmem with heq | hmem'
    · cases heq
      simp [lookupS]
    · have hk : ¬ (k' == k) = true := by
        simp only [beq_iff_eq]
        intro he; subst he
        exact hnd.1 (List.mem_map.2 ⟨(k', v), hmem', rfl⟩)
      simp only [lookupS]
      rw [if_neg hk]
      exact ih hnd.2 hmem'

theorem mem_of_lookupS_eq_some (kvs : List (String × SVal)) (k : String) (v : SVal)
    (h : lookupS kvs k = some v) : (k, v) ∈ kvs := by
  induction kvs with
  | nil => cases h
  | cons kv rest ih =>
    obtain ⟨k', v'⟩ := kv
    by_cases hk : (k' == k) = true
    · simp only [lookupS] at h
      rw [if_pos hk] at h
      injection h with h1
      have hke : k' = k := by simpa using hk
      subst hke
      subst h1
      exact List.mem_cons_self _ _
    · simp only [lookupS] at h
      rw [if_neg hk] at h
      exact List.mem_cons_of_mem _ (ih h)

/-- Python truthiness of a structure value (non-empty and non-null). -/
def pyTruthy : SVal → Bool
  | .emptyList => false
  | .null => false
  | .smap kvs => !kvs.isEmpty
  | .files names => !names.isEmpty

/-- Modelled from the spec (claim C6): environment `e` maps to a record
whose key `k` carries a non-empty, non-null value. -/
def envKeyNonEmpty (kvs : List (String × SVal)) (e k : String) : Bool :=
  match lookupS kvs e with
  | some (.smap sub) =>
    match lookupS sub k with
    | some v => pyTruthy v
    | none => false
  | _ => false

/-- Modelled from the spec (claim C6): the failure condition as the spec
states it — the top-level keys differ from exactly `dev`/`pat`/`prod`,
or some environment's `assignments`/`definitions` value is non-empty and
non-null. -/
def specC6Fail (kvs : List (String × SVal)) : Bool :=
  !(exactKeys (kvs.map Prod.fst) ["dev", "pat", "prod"]) ||
    (["dev", "pat", "prod"].any fun e =>
      envKeyNonEmpty kvs e "assignments" || envKeyNonEmpty kvs e "definitions")

/-- The counterexample tree: `dev` is an empty directory, `pat` and
`prod` are well shaped. -/
def entriesC6 : List FS :=
  [FS.dir "dev" [],
    FS.dir "pat" [FS.dir "assignments" [], FS.dir "definitions" []],
    FS.dir "prod" [FS.dir "assignments" [], FS.dir "definitions" []]]

/-- The structure the traversal computes for `entriesC6`. -/
def kvsC6 : List (String × SVal) :=
  [("dev", SVal.emptyList),
    ("pat", SVal.smap [("assignments", SVal.emptyList), ("definitions", SVal.emptyList)]),
    ("prod", SVal.smap [("assignments", SVal.emptyList), ("definitions", SVal.emptyList)])]

/-- Claim C6 counterexample: this tree's top-level keys are exactly
`dev`/`pat`/`prod` and no environment has a non-empty/non-null
`assignments`/`definitions` value, so the claimed condition says the
check passes — yet the schema rejects it (`dev` maps to a list, not a
record) and the run records a non-fatal failure (flag set, status file
written). -/
theorem gfs_nil (d : String) : get_folder_structure d [] = .ok [] := by
  simp [get_folder_structure]

theorem gfs_dir_cons (d item : String) (sub rest : List FS) (s r : List (String × SVal))
    (hvis : pyStartsWith item "." = false)
    (hs : get_folder_structure item sub = .ok s)
    (hr : get_folder_structure d rest = .ok r) :
    get_folder_structure d (FS.dir item sub :: rest) =
      .ok ((item, if s.isEmpty then SVal.emptyList else SVal.smap s) :: r) := by
  simp [get_folder_structure, hvis, hs, hr]

theorem validate_repo_structure_fail (entries : List FS) (s : RunState)
    (kvs : List (String × SVal))
    (hg : get_folder_structure "infrastructure" entries = .ok kvs)
    (hv : repoStructureValid kvs = false) :
    validate_repo_structure entries s =
      .ok ((failStep s).1, (failStep s).2 ++ [Msg.repoStructErrorMsg]) := by
  simp only [validate_repo_structure, hg]
  rw [if_neg (by simp [hv])]

theorem repo_structure_spec_counterexample :
    get_folder_structure "infrastructure" entriesC6 = .ok kvsC6 ∧
    specC6Fail kvsC6 = false ∧
    repoStructureValid kvsC6 = false ∧
    validate_repo_structure entriesC6 initState =
      .ok (⟨true, 1⟩, [Msg.failureBanner, Msg.repoStructErrorMsg]) := by
  have hg : get_folder_structure "infrastructure" entriesC6 = .ok kvsC6 :=
    gfs_dir_cons "infrastructure" "dev" [] _ [] _ (by decide) (gfs_nil _)
      (gfs_dir_cons "infrastructure" "pat" _ _ _ _ (by decide)
        (gfs_dir_cons "pat" "assignments" [] _ [] _ (by decide) (gfs_nil _)
          (gfs_dir_cons "pat" "definitions" [] [] [] [] (by decide) (gfs_nil _) (gfs_nil _)))
        (gfs_dir_cons "infrastructure" "prod" _ [] _ [] (by decide)
          (gfs_dir_cons "prod" "assignments" [] _ [] _ (by decide) (gfs_nil _)
            (gfs_dir_cons "prod" "definitions" [] [] [] [] (by decide) (gfs_nil _) (gfs_nil _)))
          (gfs_nil _)))
  refine ⟨hg, by decide, by decide, ?_⟩
  rw [validate_repo_structure_fail entriesC6 initState kvsC6 hg (by decide)]
  rfl

/-- An environment key's value conforms to the nested schema: a mapping
with exactly the keys `assignments` and `definitions`, every entry's
value empty or null. -/
def envValueOkAt (kvs : List (String × SVal)) (e : String) : Prop :=
  ∃ sub, lookupS kvs e = some (.smap sub) ∧
    exactKeys (sub.map Prod.fst) ["assignments", "definitions"] = true ∧
    ∀ kv ∈ sub, orEmptyNull kv.2 = true

/-- Amended claim C6 failure condition: the top-level keys differ from
exactly `dev`/`pat`/`prod`, or some environment's value is not a mapping
with exactly the keys `assignments`/`definitions` whose values are each
the empty list or null. -/
def AmendedC6Fail (kvs : List (String × SVal)) : Prop :=
  exactKeys (kvs.map Prod.fst) ["dev", "pat", "prod"] = false ∨
    ∃ e ∈ (["dev", "pat", "prod"] : List String), ¬ envValueOkAt kvs e

/-- Claim C6 amended form: for a structure with distinct top-level keys
(as any Python dict has), schema validation fails exactly under the
amended condition. -/
theorem repo_structure_valid_iff_amended (kvs : List (String × SVal))
    (hnd : (kvs.map Prod.fst).Nodup) :
    repoStructureValid kvs = false ↔ AmendedC6Fail kvs := by
  constructor
  · intro h
    by_cases hk : exactKeys (kvs.map Prod.fst) ["dev", "pat", "prod"] = true
    · right
      have hall : kvs.all (fun kv => envSchemaOk kv.2) = false := by
        cases hall : kvs.all (fun kv => envSchemaOk kv.2)
        · rfl
        · rw [repoStructureValid, hk, hall] at h; cases h
      obtain ⟨⟨k, v⟩, hmem, hbad⟩ := (all_eq_false_iff _ _).1 hall
      have hkreq : k ∈ (["dev", "pat", "prod"] : List String) := by
        rw [exactKeys, Bool.and_eq_true] at hk
        have := List.all_eq_true.1 hk.1 k (List.mem_map.2 ⟨(k, v), hmem, rfl⟩)
        exact List.elem_iff.1 this
      refine ⟨k, hkreq, ?_⟩
      rintro ⟨sub, hl, hex, hvals⟩
      have hlv : lookupS kvs k = some v := lookupS_eq_some_of_mem kvs k v hnd hmem
      rw [hlv] at hl
      injection hl with hl1
      subst hl1
      have hok : envSchemaOk (SVal.smap sub) = true := by
        simp only [envSchemaOk, hex, Bool.true_and]
        exact List.all_eq_true.2 fun kv hkv => hvals kv hkv
      rw [hok] at hbad; cases hbad
    · left
      revert hk; cases exactKeys (kvs.map Prod.fst) ["dev", "pat", "prod"] <;> simp
  · intro h
    rcases h with hk | ⟨e, he, hnot⟩
    · rw [repoStructureValid, hk, Bool.false_and]
    · cases hv : repoStructureValid kvs
      · rfl
      · exfalso
        rw [repoStructureValid, Bool.and_eq_true] at hv
        obtain ⟨hk, hall⟩ := hv
        rw [exactKeys, Bool.and_eq_true] at hk
        have hkeys : e ∈ kvs.map Prod.fst := by
          have := List.all_eq_true.1 hk.2 e he
          exact List.elem_iff.1 this
        obtain ⟨⟨k', v⟩, hmem, hkk⟩ := List.mem_map.1 hkeys
        simp only at hkk
        subst hkk
        have hso := List.all_eq_true.1 hall _ hmem
        simp only at hso
        cases v with
        | smap sub =>
          apply hnot
          rw [envSchemaOk, Bool.and_eq_true] at hso
          refine ⟨sub, lookupS_eq_some_of_mem kvs _ _ hnd hmem, hso.1, ?_⟩
          exact fun kv hkv => List.all_eq_true.1 hso.2 kv hkv
        | emptyList => simp [envSchemaOk] at hso
        | null => simp [envSchemaOk] at hso
        | files names => simp [envSchemaOk] at hso

theorem repo_structure_valid_iff_amended_witness :
    (kvsC6.map Prod.fst).Nodup ∧
    (repoStructureValid kvsC6 = false ↔ AmendedC6Fail kvsC6) :=
  ⟨by decide, repo_structure_valid_iff_amended kvsC6 (by decide)⟩

/-! ## `main` and the process exit code (claim C7, lines 221-264) -/

/-- The command-line argument, when exactly one was given. -/
inductive CliArg where
  | debug
  | fileList (path : String)

/-- Transcription of the live control flow of `main`: a wrong argument
count dies with exit 1; in `-d` mode the file list and status file are
fresh temporary files (so the `isfile` check always passes); otherwise
`VALIDATION_STATUS` must be set and non-empty (Python falsiness) and the
given list path must be a file, each dying with exit 1 otherwise; then
repository-structure validation runs — its fatal exits propagate — and
the process ends with exit 0.  The per-file validation loop (lines
252-259) is commented out in the source and therefore absent here. -/
def main_run (argv1 : Option CliArg) (envStatus : Option String) (infra : List FS)
    (fileListIsFile : Bool) : Nat :=
  match argv1 with
  | none => 1
  | some CliArg.debug =>
    match validate_repo_structure infra initState with
    | .error code => code
    | .ok _ => 0
  | some (CliArg.fileList _) =>
    match envStatus with
    | none => 1
    | some v =>
      if v == "" then 1
      else if !fileListIsFile then 1
      else
        match validate_repo_structure infra initState with
        | .error code => code
        | .ok _ => 0

/-- The traversal of `infrastructure/` finishes without a fatal exit. -/
def traversalOk (infra : List FS) : Bool :=
  match get_folder_structure "infrastructure" infra with
  | .ok _ => true
  | .error _ => false

/-- Claim C7: the process exits with 0 exactly when the invocation is
well formed and the traversal has no fatal error — recorded non-fatal
validation failures never force a non-zero exit. -/
theorem main_exit_zero_iff (argv1 : Option CliArg) (envStatus : Option String)
    (infra : List FS) (fileListIsFile : Bool) :
    main_run argv1 envStatus infra fileListIsFile = 0 ↔
      ((argv1 = some CliArg.debug ∨
        ((∃ p, argv1 = some (CliArg.fileList p)) ∧
          (∃ v, envStatus = some v ∧ v ≠ "") ∧ fileListIsFile = true)) ∧
        traversalOk infra = true) := by
  cases argv1 with
  | none => simp [main_run]
  | some a =>
    cases a with
    | debug =>
      cases hg : get_folder_structure "infrastructure" infra with
      | error code =>
        have hc := get_folder_structure_error_eq_one "infrastructure" infra code hg
        subst hc
        simp [main_run, validate_repo_structure, hg, traversalOk]
      | ok kvs =>
        simp only [main_run, validate_repo_structure, hg]
        by_cases hv : repoStructureValid kvs = true
        · rw [if_pos hv]
          simp [traversalOk, hg]
        · rw [if_neg hv]
          simp [traversalOk, hg]
    | fileList p =>
      cases envStatus with
      | none => simp [main_run]
      | some v =>
        by_cases hve : v = ""
        · subst hve
          simp [main_run]
        · cases hfl : fileListIsFile
          · simp [main_run, hve, hfl]
          · cases hg : get_folder_structure "infrastructure" infra with
            | error code =>
              have hc := get_folder_structure_error_eq_one "infrastructure" infra code hg
              subst hc
              simp [main_run, validate_repo_structure, hg, hve, hfl, traversalOk]
            | ok kvs =>
              simp only [main_run, validate_repo_structure, hg]
              by_cases hv2 : repoStructureValid kvs = true
              · rw [if_pos hv2]
                simp [traversalOk, hg, hve, hfl]
              · rw [if_neg hv2]
                simp [traversalOk, hg, hve, hfl]
